import Mathlib

/-!
Verification of the multicluster-global-hub strimzi transporter
(operator/pkg/controllers/hubofhubs/transporter/protocol/strimzi_transporter.go
and operator/pkg/utils/utils.go) against its natural-language specification.

The Go code manipulates Kubernetes objects through JSON marshalling:
MergeObjects marshals both objects and applies an RFC 7386 JSON merge patch
(jsonpatch.MergePatch), then unmarshals the result.  We embed JSON values as a
mutual inductive family (objects as association lists, as produced by Go's
map-based JSON codec, whose maps have unique keys) and translate the merge
patch, the apimachinery semantic-equality checks, and each reconcile flow.
-/

namespace GlobalHub

mutual

/-- A JSON value, as marshalled by Go's encoding/json. -/
inductive Json where
  | null
  | bool (b : Bool)
  | num (n : Int)
  | str (s : String)
  | arr (xs : JsonList)
  | obj (fs : JsonFields)

/-- A list of JSON values (a JSON array). -/
inductive JsonList where
  | nil
  | cons (hd : Json) (tl : JsonList)

/-- The members of a JSON object, keyed by field name. -/
inductive JsonFields where
  | nil
  | cons (k : String) (v : Json) (tl : JsonFields)

end

/-- Look up a field by key (first match), as a Go map access does. -/
def lookupField : JsonFields → String → Option Json
  | .nil, _ => none
  | .cons k' v tl, k => if k' = k then some v else lookupField tl k

/-- Whether the object members contain the given key. -/
def hasKey : JsonFields → String → Bool
  | .nil, _ => false
  | .cons k' _ tl, k => if k' = k then true else hasKey tl k

/-- Set a key to a value: replace the binding if present, else append,
as a Go map assignment does. -/
def setField : JsonFields → String → Json → JsonFields
  | .nil, k, v => .cons k v .nil
  | .cons k' v' tl, k, v =>
    if k' = k then .cons k v tl else .cons k' v' (setField tl k v)

/-- Remove every binding of a key, as a Go map delete does. -/
def eraseField : JsonFields → String → JsonFields
  | .nil, _ => .nil
  | .cons k' v' tl, k =>
    if k' = k then eraseField tl k else .cons k' v' (eraseField tl k)

/-- The members of a JSON object; a non-object has none
(RFC 7386 replaces a non-object target by the empty object). -/
def Json.objFields : Json → JsonFields
  | .obj fs => fs
  | _ => .nil

/-- Field access defaulting to null for an absent member. -/
def getFieldD (tf : JsonFields) (k : String) : Json :=
  match lookupField tf k with
  | some v => v
  | none => .null

mutual

/-- RFC 7386 JSON merge patch, the algorithm used by jsonpatch.MergePatch
inside utils.MergeObjects: a non-object patch replaces the target; an object
patch is applied member-wise, where a null member deletes the target member
and any other member is merged recursively. -/
def mergePatch : Json → Json → Json
  | t, .obj pf => .obj (mergeFields t.objFields pf)
  | _, p => p

/-- Apply the members of an object patch to the members of the target. -/
def mergeFields : JsonFields → JsonFields → JsonFields
  | tf, .nil => tf
  | tf, .cons k .null rest => mergeFields (eraseField tf k) rest
  | tf, .cons k v rest => mergeFields (setField tf k (mergePatch (getFieldD tf k) v)) rest

end

/-- utils.MergeObjects: marshal both objects, apply the desired object as an
RFC 7386 merge patch to the existing one, and decode the result. -/
def MergeObjects (existingObj desiredObj : Json) : Json :=
  mergePatch existingObj desiredObj

mutual

/-- Well-formedness of a marshalled JSON value: every object (at any depth)
has pairwise-distinct keys.  Go's encoding/json always produces such values,
since objects come from maps and struct fields. -/
def Json.wf : Json → Bool
  | .null => true
  | .bool _ => true
  | .num _ => true
  | .str _ => true
  | .arr xs => wfList xs
  | .obj fs => wfFields fs

/-- Well-formedness of the elements of a JSON array. -/
def wfList : JsonList → Bool
  | .nil => true
  | .cons x tl => x.wf && wfList tl

/-- Well-formedness of object members: keys distinct, values well-formed. -/
def wfFields : JsonFields → Bool
  | .nil => true
  | .cons k v tl => !(hasKey tl k) && v.wf && wfFields tl

end

mutual

/-- The result of merge-patching a value with itself: null members of every
object are dropped, the rest is unchanged. -/
def stripSelf : Json → Json
  | .obj fs => .obj (stripSelfFields fs)
  | j => j

/-- Drop null-valued members and recurse into the remaining values. -/
def stripSelfFields : JsonFields → JsonFields
  | .nil => .nil
  | .cons _ .null tl => stripSelfFields tl
  | .cons k v tl => .cons k (stripSelf v) (stripSelfFields tl)

end

mutual

/-- equality.Semantic.DeepDerivative of apimachinery, at the JSON level:
a is a derivative of b when every set (non-zero) part of a equals the
corresponding part of b; unset fields of a (null, empty string, empty array,
empty object) are ignored. -/
def deepDerivative : Json → Json → Bool
  | .null, _ => true
  | .bool b, t =>
    match t with
    | .bool c => b == c
    | _ => false
  | .num n, t =>
    match t with
    | .num m => n == m
    | _ => false
  | .str s, t =>
    if s = "" then true
    else match t with
      | .str u => s == u
      | _ => false
  | .arr xs, t =>
    match xs with
    | .nil => true
    | .cons _ _ =>
      match t with
      | .arr ys => ddList xs ys
      | _ => false
  | .obj fs, t =>
    match fs with
    | .nil => true
    | .cons _ _ _ =>
      match t with
      | .obj gs => ddFields fs gs
      | _ => false

/-- Element-wise derivative check for non-empty arrays (lengths must agree). -/
def ddList : JsonList → JsonList → Bool
  | .nil, .nil => true
  | .nil, .cons _ _ => false
  | .cons _ _, .nil => false
  | .cons x xt, .cons y yt => deepDerivative x y && ddList xt yt

/-- Member-wise derivative check: every member of a must resolve in b. -/
def ddFields : JsonFields → JsonFields → Bool
  | .nil, _ => true
  | .cons k v tl, gs =>
    (match lookupField gs k with
     | some w => deepDerivative v w
     | none => false) && ddFields tl gs

end

theorem lookup_set_self : ∀ (tf : JsonFields) (k : String) (v : Json),
    lookupField (setField tf k v) k = some v
  | .nil, k, v => by simp [setField, lookupField]
  | .cons k' v' tl, k, v => by
    by_cases h : k' = k
    · simp [setField, h, lookupField]
    · simp [setField, h, lookupField, lookup_set_self tl k v]

theorem lookup_set_ne : ∀ (tf : JsonFields) (k k' : String) (v : Json), k' ≠ k →
    lookupField (setField tf k v) k' = lookupField tf k'
  | .nil, k, k', v, h => by simp [setField, lookupField, Ne.symm h]
  | .cons k'' v'' tl, k, k', v, h => by
    by_cases h2 : k'' = k
    · subst h2
      simp [setField, lookupField, Ne.symm h]
    · simp only [setField, if_neg h2, lookupField]
      by_cases h3 : k'' = k'
      · simp [h3]
      · simp [h3, lookup_set_ne tl k k' v h]

theorem lookup_erase_ne : ∀ (tf : JsonFields) (k k' : String), k' ≠ k →
    lookupField (eraseField tf k) k' = lookupField tf k'
  | .nil, k, k', h => by simp [eraseField]
  | .cons k'' v'' tl, k, k', h => by
    by_cases h2 : k'' = k
    · have h3 : k'' ≠ k' := by rw [h2]; exact Ne.symm h
      simp [eraseField, if_pos h2, lookupField, h3, lookup_erase_ne tl k k' h]
    · simp only [eraseField, if_neg h2, lookupField]
      by_cases h3 : k'' = k'
      · simp [h3]
      · simp [h3, lookup_erase_ne tl k k' h]

theorem hasKey_erase_self : ∀ (tf : JsonFields) (k : String),
    hasKey (eraseField tf k) k = false
  | .nil, k => by simp [eraseField, hasKey]
  | .cons k'' v'' tl, k => by
    by_cases h2 : k'' = k
    · simp [eraseField, h2, hasKey_erase_self tl k]
    · simp [eraseField, h2, hasKey, hasKey_erase_self tl k]

theorem hasKey_erase_le : ∀ (tf : JsonFields) (k k' : String),
    hasKey (eraseField tf k) k' = true → hasKey tf k' = true
  | .nil, k, k', h => by simp [eraseField, hasKey] at h
  | .cons k'' v'' tl, k, k', h => by
    by_cases h2 : k'' = k
    · simp only [eraseField, if_pos h2] at h
      by_cases h3 : k'' = k'
      · simp [hasKey, h3]
      · simp [hasKey, h3, hasKey_erase_le tl k k' h]
    · simp only [eraseField, if_neg h2, hasKey] at h
      by_cases h3 : k'' = k'
      · simp [hasKey, h3]
      · simp only [if_neg h3] at h
        simp [hasKey, h3, hasKey_erase_le tl k k' h]

theorem hasKey_set_ne : ∀ (tf : JsonFields) (k k' : String) (v : Json), k ≠ k' →
    hasKey (setField tf k v) k' = hasKey tf k'
  | .nil, k, k', v, h => by simp [setField, hasKey, h]
  | .cons k'' v'' tl, k, k', v, h => by
    by_cases h2 : k'' = k
    · subst h2
      simp [setField, hasKey, h]
    · simp only [setField, if_neg h2, hasKey]
      by_cases h3 : k'' = k'
      · simp [h3]
      · simp [h3, hasKey_set_ne tl k k' v h]

theorem erase_not_has : ∀ (tf : JsonFields) (k : String), hasKey tf k = false →
    eraseField tf k = tf
  | .nil, k, _ => rfl
  | .cons k'' v'' tl, k, h => by
    by_cases h2 : k'' = k
    · simp [hasKey, h2] at h
    · simp only [hasKey, if_neg h2] at h
      simp [eraseField, h2, erase_not_has tl k h]

theorem set_lookup_eq_self : ∀ (tf : JsonFields) (k : String) (v : Json),
    lookupField tf k = some v → setField tf k v = tf
  | .nil, k, v, h => by simp [lookupField] at h
  | .cons k'' v'' tl, k, v, h => by
    by_cases h2 : k'' = k
    · subst h2
      simp only [lookupField, if_true, eq_self_iff_true] at h
      simp only [Option.some.injEq] at h
      simp [setField, h]
    · simp only [lookupField, if_neg h2] at h
      simp [setField, h2, set_lookup_eq_self tl k v h]

theorem hasKey_cons_false {k' : String} {v : Json} {tl : JsonFields} {k : String}
    (h : hasKey (.cons k' v tl) k = false) : k' ≠ k ∧ hasKey tl k = false := by
  by_cases h2 : k' = k
  · simp [hasKey, h2] at h
  · simp [hasKey, h2] at h
    exact ⟨h2, h⟩

theorem hasKey_erase_false (tf : JsonFields) (k' k : String) (h : hasKey tf k = false) :
    hasKey (eraseField tf k') k = false := by
  cases hh : hasKey (eraseField tf k') k with
  | false => rfl
  | true => exact absurd (hasKey_erase_le tf k' k hh) (by simp [h])

theorem erase_cons_ne (tf : JsonFields) (k k' : String) (w : Json) (h : k ≠ k') :
    eraseField (.cons k w tf) k' = .cons k w (eraseField tf k') := by
  simp [eraseField, h]

theorem set_cons_ne (tf : JsonFields) (k k' : String) (w v : Json) (h : k ≠ k') :
    setField (.cons k w tf) k' v = .cons k w (setField tf k' v) := by
  simp [setField, h]

theorem mergeFields_nil (tf : JsonFields) : mergeFields tf .nil = tf := rfl

theorem mergeFields_cons_null (tf : JsonFields) (k : String) (rest : JsonFields) :
    mergeFields tf (.cons k .null rest) = mergeFields (eraseField tf k) rest := rfl

theorem mergeFields_cons_notnull (tf : JsonFields) (k : String) (v : Json) (rest : JsonFields)
    (h : v ≠ .null) :
    mergeFields tf (.cons k v rest)
      = mergeFields (setField tf k (mergePatch (getFieldD tf k) v)) rest := by
  cases v with
  | null => exact absurd rfl h
  | bool b => rfl
  | num n => rfl
  | str s => rfl
  | arr xs => rfl
  | obj fs => rfl

theorem hasKey_mergeFields : ∀ (pf tf : JsonFields) (k : String),
    hasKey tf k = false → hasKey pf k = false → hasKey (mergeFields tf pf) k = false
  | .nil, tf, k, h1, _ => h1
  | .cons k' v rest, tf, k, h1, h2 => by
    obtain ⟨hk, h2'⟩ := hasKey_cons_false h2
    cases v with
    | null =>
      rw [mergeFields_cons_null]
      exact hasKey_mergeFields rest _ k (hasKey_erase_false tf k' k h1) h2'
    | bool b =>
      rw [mergeFields_cons_notnull tf k' _ rest (by simp)]
      exact hasKey_mergeFields rest _ k (by rw [hasKey_set_ne tf k' k _ hk]; exact h1) h2'
    | num n =>
      rw [mergeFields_cons_notnull tf k' _ rest (by simp)]
      exact hasKey_mergeFields rest _ k (by rw [hasKey_set_ne tf k' k _ hk]; exact h1) h2'
    | str s =>
      rw [mergeFields_cons_notnull tf k' _ rest (by simp)]
      exact hasKey_mergeFields rest _ k (by rw [hasKey_set_ne tf k' k _ hk]; exact h1) h2'
    | arr xs =>
      rw [mergeFields_cons_notnull tf k' _ rest (by simp)]
      exact hasKey_mergeFields rest _ k (by rw [hasKey_set_ne tf k' k _ hk]; exact h1) h2'
    | obj fs =>
      rw [mergeFields_cons_notnull tf k' _ rest (by simp)]
      exact hasKey_mergeFields rest _ k (by rw [hasKey_set_ne tf k' k _ hk]; exact h1) h2'

theorem lookup_mergeFields_not_in : ∀ (pf tf : JsonFields) (k : String),
    hasKey pf k = false → lookupField (mergeFields tf pf) k = lookupField tf k
  | .nil, tf, k, _ => rfl
  | .cons k' v rest, tf, k, h => by
    obtain ⟨hk, h'⟩ := hasKey_cons_false h
    cases v with
    | null =>
      rw [mergeFields_cons_null, lookup_mergeFields_not_in rest _ k h',
        lookup_erase_ne tf k' k (Ne.symm hk)]
    | bool b =>
      rw [mergeFields_cons_notnull tf k' _ rest (by simp),
        lookup_mergeFields_not_in rest _ k h', lookup_set_ne tf k' k _ (Ne.symm hk)]
    | num n =>
      rw [mergeFields_cons_notnull tf k' _ rest (by simp),
        lookup_mergeFields_not_in rest _ k h', lookup_set_ne tf k' k _ (Ne.symm hk)]
    | str s =>
      rw [mergeFields_cons_notnull tf k' _ rest (by simp),
        lookup_mergeFields_not_in rest _ k h', lookup_set_ne tf k' k _ (Ne.symm hk)]
    | arr xs =>
      rw [mergeFields_cons_notnull tf k' _ rest (by simp),
        lookup_mergeFields_not_in rest _ k h', lookup_set_ne tf k' k _ (Ne.symm hk)]
    | obj fs =>
      rw [mergeFields_cons_notnull tf k' _ rest (by simp),
        lookup_mergeFields_not_in rest _ k h', lookup_set_ne tf k' k _ (Ne.symm hk)]

theorem getFieldD_cons_ne (tf : JsonFields) (k k' : String) (w : Json) (h : k ≠ k') :
    getFieldD (.cons k w tf) k' = getFieldD tf k' := by
  simp [getFieldD, lookupField, h]

theorem mergeFields_cons_skip : ∀ (pf tf : JsonFields) (k : String) (w : Json),
    hasKey pf k = false → mergeFields (.cons k w tf) pf = .cons k w (mergeFields tf pf)
  | .nil, tf, k, w, _ => rfl
  | .cons k' v rest, tf, k, w, h => by
    obtain ⟨hk, h'⟩ := hasKey_cons_false h
    cases v with
    | null =>
      rw [mergeFields_cons_null, mergeFields_cons_null, erase_cons_ne tf k k' w (Ne.symm hk),
        mergeFields_cons_skip rest _ k w h']
    | bool b =>
      rw [mergeFields_cons_notnull _ k' _ rest (by simp),
        mergeFields_cons_notnull tf k' _ rest (by simp),
        getFieldD_cons_ne tf k k' w (Ne.symm hk), set_cons_ne tf k k' w _ (Ne.symm hk),
        mergeFields_cons_skip rest _ k w h']
    | num n =>
      rw [mergeFields_cons_notnull _ k' _ rest (by simp),
        mergeFields_cons_notnull tf k' _ rest (by simp),
        getFieldD_cons_ne tf k k' w (Ne.symm hk), set_cons_ne tf k k' w _ (Ne.symm hk),
        mergeFields_cons_skip rest _ k w h']
    | str s =>
      rw [mergeFields_cons_notnull _ k' _ rest (by simp),
        mergeFields_cons_notnull tf k' _ rest (by simp),
        getFieldD_cons_ne tf k k' w (Ne.symm hk), set_cons_ne tf k k' w _ (Ne.symm hk),
        mergeFields_cons_skip rest _ k w h']
    | arr xs =>
      rw [mergeFields_cons_notnull _ k' _ rest (by simp),
        mergeFields_cons_notnull tf k' _ rest (by simp),
        getFieldD_cons_ne tf k k' w (Ne.symm hk), set_cons_ne tf k k' w _ (Ne.symm hk),
        mergeFields_cons_skip rest _ k w h']
    | obj fs =>
      rw [mergeFields_cons_notnull _ k' _ rest (by simp),
        mergeFields_cons_notnull tf k' _ rest (by simp),
        getFieldD_cons_ne tf k k' w (Ne.symm hk), set_cons_ne tf k k' w _ (Ne.symm hk),
        mergeFields_cons_skip rest _ k w h']

theorem wfFields_cons_elim {k : String} {v : Json} {tl : JsonFields}
    (h : wfFields (.cons k v tl) = true) :
    hasKey tl k = false ∧ v.wf = true ∧ wfFields tl = true := by
  simp only [wfFields, Bool.and_eq_true, Bool.not_eq_true'] at h
  exact ⟨h.1.1, h.1.2, h.2⟩

theorem wfFields_cons_intro {k : String} {v : Json} {tl : JsonFields}
    (h1 : hasKey tl k = false) (h2 : v.wf = true) (h3 : wfFields tl = true) :
    wfFields (.cons k v tl) = true := by
  simp only [wfFields, Bool.and_eq_true, Bool.not_eq_true']
  exact ⟨⟨h1, h2⟩, h3⟩

theorem wfFields_erase : ∀ (tf : JsonFields) (k : String),
    wfFields tf = true → wfFields (eraseField tf k) = true
  | .nil, _, _ => rfl
  | .cons k' v tl, k, h => by
    obtain ⟨h1, h2, h3⟩ := wfFields_cons_elim h
    by_cases hk : k' = k
    · simp only [eraseField, if_pos hk]
      exact wfFields_erase tl k h3
    · simp only [eraseField, if_neg hk]
      exact wfFields_cons_intro (hasKey_erase_false tl k k' h1) h2 (wfFields_erase tl k h3)

theorem wfFields_set : ∀ (tf : JsonFields) (k : String) (v : Json),
    wfFields tf = true → v.wf = true → wfFields (setField tf k v) = true
  | .nil, k, v, _, hv => by
    simp only [setField]
    exact wfFields_cons_intro rfl hv rfl
  | .cons k' v' tl, k, v, h, hv => by
    obtain ⟨h1, h2, h3⟩ := wfFields_cons_elim h
    by_cases hk : k' = k
    · simp only [setField, if_pos hk]
      exact wfFields_cons_intro (hk ▸ h1) hv h3
    · simp only [setField, if_neg hk]
      refine wfFields_cons_intro ?_ h2 (wfFields_set tl k v h3 hv)
      rw [hasKey_set_ne tl k k' v (fun he => hk he.symm)]
      exact h1

theorem lookup_wf : ∀ (tf : JsonFields) (k : String) (v : Json),
    wfFields tf = true → lookupField tf k = some v → v.wf = true
  | .nil, k, v, _, hl => by simp [lookupField] at hl
  | .cons k' v' tl, k, v, h, hl => by
    obtain ⟨_, h2, h3⟩ := wfFields_cons_elim h
    by_cases hk : k' = k
    · simp only [lookupField, if_pos hk, Option.some.injEq] at hl
      exact hl ▸ h2
    · simp only [lookupField, if_neg hk] at hl
      exact lookup_wf tl k v h3 hl

theorem getFieldD_wf (tf : JsonFields) (k : String) (h : wfFields tf = true) :
    (getFieldD tf k).wf = true := by
  unfold getFieldD
  cases hl : lookupField tf k with
  | none => rfl
  | some v => exact lookup_wf tf k v h hl

theorem objFields_wf : ∀ (t : Json), t.wf = true → wfFields t.objFields = true
  | .null, _ => rfl
  | .bool _, _ => rfl
  | .num _, _ => rfl
  | .str _, _ => rfl
  | .arr _, _ => rfl
  | .obj _, h => h

theorem getFieldD_of_lookup {tf : JsonFields} {k : String} {v : Json}
    (h : lookupField tf k = some v) : getFieldD tf k = v := by
  unfold getFieldD
  rw [h]

theorem stripSelfFields_cons_notnull (k : String) (v : Json) (tl : JsonFields) (h : v ≠ .null) :
    stripSelfFields (.cons k v tl) = .cons k (stripSelf v) (stripSelfFields tl) := by
  cases v with
  | null => exact absurd rfl h
  | bool b => rfl
  | num n => rfl
  | str s => rfl
  | arr xs => rfl
  | obj fs => rfl

mutual

theorem mergePatch_wf : ∀ (p t : Json), t.wf = true → p.wf = true → (mergePatch t p).wf = true
  | .null, _, _, _ => rfl
  | .bool _, _, _, _ => rfl
  | .num _, _, _, _ => rfl
  | .str _, _, _, _ => rfl
  | .arr _, _, _, hp => hp
  | .obj pf, t, ht, hp => mergeFields_wf pf t.objFields (objFields_wf t ht) hp

theorem mergeFields_wf : ∀ (pf tf : JsonFields),
    wfFields tf = true → wfFields pf = true → wfFields (mergeFields tf pf) = true
  | .nil, tf, ht, _ => ht
  | .cons k v rest, tf, ht, hp => by
    obtain ⟨h1, h2, h3⟩ := wfFields_cons_elim hp
    by_cases hv : v = .null
    · subst hv
      rw [mergeFields_cons_null]
      exact mergeFields_wf rest _ (wfFields_erase tf k ht) h3
    · rw [mergeFields_cons_notnull tf k v rest hv]
      exact mergeFields_wf rest _
        (wfFields_set tf k _ ht (mergePatch_wf v _ (getFieldD_wf tf k ht) h2)) h3

end

mutual

theorem mergePatch_idem : ∀ (p t : Json), p.wf = true →
    mergePatch (mergePatch t p) p = mergePatch t p
  | .null, _, _ => rfl
  | .bool _, _, _ => rfl
  | .num _, _, _ => rfl
  | .str _, _, _ => rfl
  | .arr _, _, _ => rfl
  | .obj pf, t, hp => by
    show Json.obj (mergeFields (Json.obj (mergeFields t.objFields pf)).objFields pf)
        = Json.obj (mergeFields t.objFields pf)
    exact congrArg Json.obj (mergeFields_idem pf t.objFields hp)

theorem mergeFields_idem : ∀ (pf tf : JsonFields), wfFields pf = true →
    mergeFields (mergeFields tf pf) pf = mergeFields tf pf
  | .nil, _, _ => rfl
  | .cons k v rest, tf, hp => by
    obtain ⟨h1, h2, h3⟩ := wfFields_cons_elim hp
    by_cases hv : v = .null
    · subst hv
      rw [mergeFields_cons_null]
      rw [mergeFields_cons_null]
      rw [erase_not_has _ k (hasKey_mergeFields rest _ k (hasKey_erase_self tf k) h1)]
      exact mergeFields_idem rest _ h3
    · rw [mergeFields_cons_notnull tf k v rest hv]
      have hT : lookupField (mergeFields (setField tf k (mergePatch (getFieldD tf k) v)) rest) k
          = some (mergePatch (getFieldD tf k) v) := by
        rw [lookup_mergeFields_not_in rest _ k h1, lookup_set_self]
      have hg : getFieldD (mergeFields (setField tf k (mergePatch (getFieldD tf k) v)) rest) k
          = mergePatch (getFieldD tf k) v := getFieldD_of_lookup hT
      rw [mergeFields_cons_notnull _ k v rest hv, hg,
        mergePatch_idem v (getFieldD tf k) h2, set_lookup_eq_self _ k _ hT]
      exact mergeFields_idem rest _ h3

end

mutual

theorem mergePatch_self : ∀ (a : Json), a.wf = true → mergePatch a a = stripSelf a
  | .null, _ => rfl
  | .bool _, _ => rfl
  | .num _, _ => rfl
  | .str _, _ => rfl
  | .arr _, _ => rfl
  | .obj fs, h => by
    show Json.obj (mergeFields (Json.obj fs).objFields fs) = Json.obj (stripSelfFields fs)
    exact congrArg Json.obj (mergeFields_self fs h)

theorem mergeFields_self : ∀ (fs : JsonFields), wfFields fs = true →
    mergeFields fs fs = stripSelfFields fs
  | .nil, _ => rfl
  | .cons k v tl, h => by
    obtain ⟨h1, h2, h3⟩ := wfFields_cons_elim h
    by_cases hv : v = .null
    · subst hv
      rw [mergeFields_cons_null]
      have he : eraseField (JsonFields.cons k Json.null tl) k = tl := by
        simp only [eraseField, if_pos rfl]
        exact erase_not_has tl k h1
      rw [he, mergeFields_self tl h3]
      rfl
    · rw [mergeFields_cons_notnull _ k v tl hv]
      have hgd : getFieldD (JsonFields.cons k v tl) k = v := by
        simp [getFieldD, lookupField]
      have hset : setField (JsonFields.cons k v tl) k (mergePatch v v)
          = JsonFields.cons k (mergePatch v v) tl := by
        simp [setField]
      rw [hgd, hset, mergeFields_cons_skip tl tl k _ h1, mergeFields_self tl h3,
        mergePatch_self v h2, stripSelfFields_cons_notnull k v tl hv]

end

mutual

theorem dd_refl : ∀ (a : Json), a.wf = true → deepDerivative a a = true
  | .null, _ => rfl
  | .bool b, _ => by simp [deepDerivative]
  | .num n, _ => by simp [deepDerivative]
  | .str s, _ => by
    by_cases hs : s = ""
    · simp [deepDerivative, hs]
    · simp [deepDerivative, hs]
  | .arr xs, h => by
    cases xs with
    | nil => rfl
    | cons x xt =>
      show ddList (.cons x xt) (.cons x xt) = true
      exact ddList_refl (.cons x xt) h
  | .obj fs, h => by
    cases fs with
    | nil => rfl
    | cons k v tl =>
      show ddFields (.cons k v tl) (.cons k v tl) = true
      exact ddFields_sub (.cons k v tl) (.cons k v tl) h (fun _ _ => rfl)

theorem ddList_refl : ∀ (xs : JsonList), wfList xs = true → ddList xs xs = true
  | .nil, _ => rfl
  | .cons x xt, h => by
    have h1 : x.wf = true ∧ wfList xt = true := by
      simpa [wfList, Bool.and_eq_true] using h
    simp only [ddList, Bool.and_eq_true]
    exact ⟨dd_refl x h1.1, ddList_refl xt h1.2⟩

theorem ddFields_sub : ∀ (fs gs : JsonFields), wfFields fs = true →
    (∀ k, hasKey fs k = true → lookupField gs k = lookupField fs k) → ddFields fs gs = true
  | .nil, _, _, _ => rfl
  | .cons k v tl, gs, h, hagree => by
    obtain ⟨h1, h2, h3⟩ := wfFields_cons_elim h
    have hk : lookupField gs k = some v := by
      rw [hagree k (by simp [hasKey])]
      simp [lookupField]
    simp only [ddFields, hk, Bool.and_eq_true]
    refine ⟨dd_refl v h2, ddFields_sub tl gs h3 ?_⟩
    intro k' hk'
    have hkne : k ≠ k' := fun he => by
      rw [he] at h1
      rw [h1] at hk'
      exact Bool.false_ne_true hk'
    rw [hagree k' (by simp [hasKey, hk'])]
    simp [lookupField, hkne]

end

mutual

theorem dd_strip : ∀ (a : Json), a.wf = true → deepDerivative (stripSelf a) a = true
  | .null, _ => rfl
  | .bool b, h => dd_refl (.bool b) h
  | .num n, h => dd_refl (.num n) h
  | .str s, h => dd_refl (.str s) h
  | .arr xs, h => dd_refl (.arr xs) h
  | .obj fs, h => by
    show deepDerivative (.obj (stripSelfFields fs)) (.obj fs) = true
    cases hsf : stripSelfFields fs with
    | nil => rfl
    | cons k v tl =>
      show ddFields (.cons k v tl) fs = true
      rw [← hsf]
      exact ddFields_strip fs fs h (fun _ _ => rfl)

theorem ddFields_strip : ∀ (fs gs : JsonFields), wfFields fs = true →
    (∀ k, hasKey fs k = true → lookupField gs k = lookupField fs k) →
    ddFields (stripSelfFields fs) gs = true
  | .nil, _, _, _ => rfl
  | .cons k v tl, gs, h, hagree => by
    obtain ⟨h1, h2, h3⟩ := wfFields_cons_elim h
    have htail : ∀ k', hasKey tl k' = true → lookupField gs k' = lookupField tl k' := by
      intro k' hk'
      have hkne : k ≠ k' := fun he => by
        rw [he] at h1
        rw [h1] at hk'
        exact Bool.false_ne_true hk'
      rw [hagree k' (by simp [hasKey, hk'])]
      simp [lookupField, hkne]
    by_cases hv : v = .null
    · subst hv
      show ddFields (stripSelfFields tl) gs = true
      exact ddFields_strip tl gs h3 htail
    · rw [stripSelfFields_cons_notnull k v tl hv]
      have hk : lookupField gs k = some v := by
        rw [hagree k (by simp [hasKey])]
        simp [lookupField]
      simp only [ddFields, hk, Bool.and_eq_true]
      exact ⟨dd_strip v h2, ddFields_strip tl gs h3 htail⟩

end

/-- Merge-patching a well-formed JSON value with itself yields a semantic
derivative of the original: the self-merge changes nothing observable. -/
theorem dd_mergePatch_self (d : Json) (h : d.wf = true) :
    deepDerivative (mergePatch d d) d = true := by
  rw [mergePatch_self d h]
  exact dd_strip d h

/-- EnsureUser's reconcile flow, at the level of the marshalled object JSON:
when the object is absent, create the desired object verbatim; when present,
merge the desired object into it with utils.MergeObjects and issue an update
only when the merge result is not a semantic derivative of the existing
object (equality.Semantic.DeepDerivative, which the Go code applies to the
spec of both objects).  Returns the stored object after the call and whether
a write (create or update) was issued. -/
def EnsureUser (existing : Option Json) (desiredKafkaUser : Json) : Json × Bool :=
  match existing with
  | none => (desiredKafkaUser, true)
  | some kafkaUser =>
    let updatedKafkaUser := MergeObjects kafkaUser desiredKafkaUser
    if deepDerivative updatedKafkaUser kafkaUser then (kafkaUser, false)
    else (updatedKafkaUser, true)

/-- Well-formedness of a possibly-absent stored object. -/
def optionWf : Option Json → Bool
  | none => true
  | some e => e.wf

/-- C1: Idempotence of the ensure primitive: for every desired object and
every (possibly absent) existing object, re-running EnsureUser against the
object produced by a previous EnsureUser with the same desired object finds
the semantic-equality check satisfied and performs no write, reporting
changed=false and leaving the stored object unchanged. -/
theorem c1_ensure_idempotent (desired : Json) (existing : Option Json)
    (hd : desired.wf = true) (he : optionWf existing = true) :
    EnsureUser (some (EnsureUser existing desired).1) desired
      = ((EnsureUser existing desired).1, false) := by
  cases existing with
  | none =>
    have hc := dd_mergePatch_self desired hd
    simp [EnsureUser, MergeObjects, hc]
  | some e =>
    have he' : e.wf = true := he
    by_cases hdd : deepDerivative (mergePatch e desired) e = true
    · simp [EnsureUser, MergeObjects, hdd]
    · have hm : mergePatch (mergePatch e desired) desired = mergePatch e desired :=
        mergePatch_idem desired e hd
      have hwfm : (mergePatch e desired).wf = true := mergePatch_wf desired e he' hd
      have hc : deepDerivative (mergePatch (mergePatch e desired) desired)
          (mergePatch e desired) = true := by
        rw [hm]
        exact dd_refl _ hwfm
      simp [EnsureUser, MergeObjects, hdd, hc]

/-- Members of a small desired KafkaUser-like object, used as witness data. -/
def sampleDesiredFields : JsonFields :=
  .cons "authentication" (.obj (.cons "type" (.str "tls-external") .nil))
    (.cons "authorization" (.obj (.cons "type" (.str "simple") .nil)) .nil)

/-- Members of a matching existing object carrying a server-set extra field. -/
def sampleExistingFields : JsonFields :=
  .cons "authentication" (.obj (.cons "type" (.str "tls") .nil))
    (.cons "status" (.str "Ready") .nil)

theorem c1_ensure_idempotent_witness :
    (Json.obj sampleDesiredFields).wf = true
      ∧ optionWf (some (.obj sampleExistingFields)) = true
      ∧ EnsureUser
          (some (EnsureUser (some (.obj sampleExistingFields)) (.obj sampleDesiredFields)).1)
          (.obj sampleDesiredFields)
        = ((EnsureUser (some (.obj sampleExistingFields)) (.obj sampleDesiredFields)).1, false) :=
  ⟨rfl, rfl, c1_ensure_idempotent (.obj sampleDesiredFields) (some (.obj sampleExistingFields))
    rfl rfl⟩

/-- C3: Non-destructive merge: every field of the existing object that the
desired object does not mention survives utils.MergeObjects with its existing
value intact. -/
theorem c3_merge_non_destructive (ea da : JsonFields) (F : String) (v : Json)
    (habsent : hasKey da F = false) (hpresent : lookupField ea F = some v) :
    lookupField (MergeObjects (.obj ea) (.obj da)).objFields F = some v := by
  show lookupField (mergeFields ea da) F = some v
  rw [lookup_mergeFields_not_in da ea F habsent, hpresent]

/-- Members of an existing topic-like object with a server-assigned field. -/
def c3ExistingFields : JsonFields :=
  .cons "partitions" (.num 1) (.cons "clusterOperatorDefault" (.bool true) .nil)

/-- Members of a desired object that does not mention the extra field. -/
def c3DesiredFields : JsonFields :=
  .cons "partitions" (.num 2) .nil

theorem c3_merge_non_destructive_witness :
    hasKey c3DesiredFields "clusterOperatorDefault" = false
      ∧ lookupField c3ExistingFields "clusterOperatorDefault" = some (.bool true)
      ∧ lookupField (MergeObjects (.obj c3ExistingFields) (.obj c3DesiredFields)).objFields
          "clusterOperatorDefault" = some (.bool true) :=
  ⟨rfl, rfl,
    c3_merge_non_destructive c3ExistingFields c3DesiredFields "clusterOperatorDefault"
      (.bool true) rfl rfl⟩

/-- Owner label key placed on global-hub-owned objects (constants package;
only its presence matters for the claims, not its exact text). -/
def GlobalHubOwnerLabelKey : String := "global-hub.open-cluster-management.io/managed-by"

/-- Owner label value placed on global-hub-owned objects. -/
def GlobalHubOwnerLabelVal : String := "global-hub-operator"

/-- Metadata of the desired KafkaTopic built by newKafkaTopic: name,
namespace, and the strimzi cluster label plus the owner label. -/
def topicMetadataJson (topicName kafkaClusterNamespace kafkaClusterName : String) : Json :=
  .obj (.cons "name" (.str topicName)
    (.cons "namespace" (.str kafkaClusterNamespace)
      (.cons "labels"
        (.obj (.cons "strimzi.io/cluster" (.str kafkaClusterName)
          (.cons GlobalHubOwnerLabelKey (.str GlobalHubOwnerLabelVal) .nil))) .nil)))

/-- Spec members of the desired KafkaTopic built by newKafkaTopic:
partitions, replicas, and the compact cleanup policy. -/
def topicSpecFields (partitions replicas : Int) : JsonFields :=
  .cons "partitions" (.num partitions)
    (.cons "replicas" (.num replicas)
      (.cons "config" (.obj (.cons "cleanup.policy" (.str "compact") .nil)) .nil))

/-- newKafkaTopic: the desired KafkaTopic object, marshalled to JSON. -/
def newKafkaTopic (topicName kafkaClusterNamespace kafkaClusterName : String)
    (partitions replicas : Int) : Json :=
  .obj (.cons "metadata" (topicMetadataJson topicName kafkaClusterNamespace kafkaClusterName)
    (.cons "spec" (.obj (topicSpecFields partitions replicas)) .nil))

/-- Read spec.replicas of a marshalled topic object. -/
def getSpecReplicas (j : Json) : Option Json :=
  match j with
  | .obj fs =>
    match lookupField fs "spec" with
    | some (.obj sf) => lookupField sf "replicas"
    | _ => none
  | _ => none

/-- Overwrite (or clear) spec.replicas of a marshalled topic object: the
effect of the Go assignment updatedTopic.Spec.Replicas = kafkaTopic.Spec.Replicas. -/
def setSpecReplicas (j : Json) (ov : Option Json) : Json :=
  match j with
  | .obj fs =>
    match lookupField fs "spec" with
    | some (.obj sf) =>
      .obj (setField fs "spec"
        (.obj (match ov with
          | some v => setField sf "replicas" v
          | none => eraseField sf "replicas")))
    | _ => j
  | _ => j

/-- EnsureTopic's update path for one existing topic: merge the desired topic
into the existing one with utils.MergeObjects, then force the merged object's
replica count back to the existing (live) one, since Kafka does not support
changing the replication factor of an existing topic. -/
def EnsureTopicUpdate (existingTopic desiredTopic : Json) : Json :=
  setSpecReplicas (MergeObjects existingTopic desiredTopic) (getSpecReplicas existingTopic)

theorem setSpecReplicas_obj (fs sf : JsonFields) (v : Json)
    (hspec : lookupField fs "spec" = some (.obj sf)) :
    setSpecReplicas (.obj fs) (some v)
      = .obj (setField fs "spec" (.obj (setField sf "replicas" v))) := by
  have key : ∀ (r : Option Json), r = some (.obj sf) →
      (match r with
        | some (.obj sf2) =>
          Json.obj (setField fs "spec" (.obj (setField sf2 "replicas" v)))
        | _ => Json.obj fs)
        = .obj (setField fs "spec" (.obj (setField sf "replicas" v))) := by
    intro r hr
    subst hr
    rfl
  exact key (lookupField fs "spec") hspec

theorem getSpecReplicas_obj (fs sf : JsonFields)
    (hspec : lookupField fs "spec" = some (.obj sf)) :
    getSpecReplicas (.obj fs) = lookupField sf "replicas" := by
  have key : ∀ (r : Option Json), r = some (.obj sf) →
      (match r with
        | some (.obj sf2) => lookupField sf2 "replicas"
        | _ => (none : Option Json))
        = lookupField sf "replicas" := by
    intro r hr
    subst hr
    rfl
  exact key (lookupField fs "spec") hspec

/-- C8: Replica-factor stability: merging a desired topic with any desired
replication factor into an existing topic whose live factor differs leaves
the live factor in the merged result that EnsureTopic would write. -/
theorem c8_replica_factor_stability (existingTopic : Json)
    (topicName ns cluster : String) (partitions rWant rLive : Int)
    (hlive : getSpecReplicas existingTopic = some (.num rLive))
    (_hdiff : rWant ≠ rLive) :
    getSpecReplicas (EnsureTopicUpdate existingTopic
        (newKafkaTopic topicName ns cluster partitions rWant)) = some (.num rLive) := by
  obtain ⟨FS, W, h0, hW⟩ :
      ∃ FS W, mergePatch existingTopic (newKafkaTopic topicName ns cluster partitions rWant)
          = .obj FS ∧ lookupField FS "spec" = some (.obj W) :=
    ⟨_, _, rfl, lookup_set_self _ _ _⟩
  unfold EnsureTopicUpdate MergeObjects
  rw [hlive, h0, setSpecReplicas_obj _ _ _ hW,
    getSpecReplicas_obj _ _ (lookup_set_self _ _ _), lookup_set_self]

/-- An existing shared topic whose live replication factor is 3. -/
def c8ExistingTopic : Json :=
  .obj (.cons "metadata" (.obj (.cons "name" (.str "spec") .nil))
    (.cons "spec" (.obj (.cons "partitions" (.num 1)
      (.cons "replicas" (.num 3) .nil))) .nil))

theorem c8_replica_factor_stability_witness :
    getSpecReplicas c8ExistingTopic = some (.num 3) ∧ (1 : Int) ≠ 3
      ∧ getSpecReplicas (EnsureTopicUpdate c8ExistingTopic
          (newKafkaTopic "spec" "multicluster-global-hub" "kafka" 1 1)) = some (.num 3) :=
  ⟨rfl, by decide,
    c8_replica_factor_stability c8ExistingTopic "spec" "multicluster-global-hub" "kafka" 1 1 3
      rfl (by decide)⟩

/-- ACL resource pattern type (strimzi acls element resource pattern type). -/
inductive PatternType where
  | literalPattern
  | prefixPattern
deriving DecidableEq, Repr

/-- ACL resource kind: topic or consumer group. -/
inductive AclResourceKind where
  | topicResource
  | groupResource
deriving DecidableEq, Repr

/-- ACL operations granted by the transporter. -/
inductive AclOperation where
  | readOp
  | writeOp
  | describeOp
deriving DecidableEq, Repr

/-- One ACL rule of a KafkaUser authorization. -/
structure AclRule where
  host : String
  resourceKind : AclResourceKind
  resourceName : String
  patternType : PatternType
  operations : List AclOperation
deriving DecidableEq, Repr

/-- WriteTopicACL: host '*', topic resource with the given name, pattern type
literal (set unconditionally), operation Write. -/
def WriteTopicACL (topicName : String) : AclRule :=
  { host := "*", resourceKind := .topicResource, resourceName := topicName,
    patternType := .literalPattern, operations := [.writeOp] }

/-- ReadTopicACL: host '*', topic resource, literal pattern unless the prefix
flag is passed, operations Describe then Read. -/
def ReadTopicACL (topicName : String) (prefixParttern : Bool) : AclRule :=
  { host := "*", resourceKind := .topicResource, resourceName := topicName,
    patternType := if prefixParttern then .prefixPattern else .literalPattern,
    operations := [.describeOp, .readOp] }

/-- ConsumeGroupReadACL: host '*', group resource named '*', literal pattern,
operation Read. -/
def ConsumeGroupReadACL : AclRule :=
  { host := "*", resourceKind := .groupResource, resourceName := "*",
    patternType := .literalPattern, operations := [.readOp] }

/-- Global topic-naming configuration: the shared spec topic and the raw
status-topic template, which may contain the wildcard marker. -/
structure TransportConfig where
  specTopic : String
  rawStatusTopic : String

/-- Modelled from the spec: config.GetSpecTopic is not among the sampled
sources; the spec topic is the single configured shared inbound topic. -/
def GetSpecTopic (cfg : TransportConfig) : String := cfg.specTopic

/-- Whether a topic template contains the wildcard marker
(strings.Contains with the one-character marker). -/
def containsWildcard (s : String) : Bool := s.data.contains '*'

/-- Substitute a replacement for every wildcard marker in a character list. -/
def substWildcardChars : List Char → List Char → List Char
  | [], _ => []
  | c :: rest, t =>
    if c = '*' then t ++ substWildcardChars rest t else c :: substWildcardChars rest t

/-- Substitute the tenant name for every wildcard marker of the template. -/
def substWildcard (template tenant : String) : String :=
  ⟨substWildcardChars template.data tenant.data⟩

/-- Modelled from the spec: config.GetStatusTopic is not among the sampled
sources; per the spec (section 3, TenantTopicPair) the per-tenant status topic
is the configured template with the tenant identifier substituted for the
wildcard marker when the marker is present, else the template itself. -/
def GetStatusTopic (cfg : TransportConfig) (clusterName : String) : String :=
  if containsWildcard cfg.rawStatusTopic then substWildcard cfg.rawStatusTopic clusterName
  else cfg.rawStatusTopic

/-- The per-tenant topic pair returned by getClusterTopic. -/
structure ClusterTopic where
  SpecTopic : String
  StatusTopic : String
deriving DecidableEq, Repr

/-- getClusterTopic: derive the tenant's topic pair from the configuration. -/
def getClusterTopic (cfg : TransportConfig) (clusterName : String) : ClusterTopic :=
  { SpecTopic := GetSpecTopic cfg, StatusTopic := GetStatusTopic cfg clusterName }

/-- The simple ACLs EnsureUser builds for a tenant's KafkaUser, in source
order: consumer-group read on literal '*', spec-topic read and describe,
status-topic write. -/
def ensureUserACLs (cfg : TransportConfig) (clusterName : String) : List AclRule :=
  [ConsumeGroupReadACL,
   ReadTopicACL (getClusterTopic cfg clusterName).SpecTopic false,
   WriteTopicACL (getClusterTopic cfg clusterName).StatusTopic]

/-- The configuration of the deterministic-ACL-derivation example: spec topic
named spec and status-topic template containing the wildcard marker. -/
def c2Config : TransportConfig := { specTopic := "spec", rawStatusTopic := "status.*" }

/-- C2 fails on the code: for tenant cluster-a under template status.*, the
status-topic write rule built by EnsureUser carries pattern type literal, not
prefix as the claim requires (WriteTopicACL hard-codes the literal pattern;
the prefix pattern appears only in the separately rendered operator user). -/
theorem c2_counterexample :
    ((ensureUserACLs c2Config "cluster-a").get? 2).map AclRule.patternType
        = some PatternType.literalPattern
      ∧ PatternType.literalPattern ≠ PatternType.prefixPattern :=
  ⟨rfl, by decide⟩

/-- C2 (amended): with a wildcard status-topic template, the tenant's access
policy is exactly the three rules, in order: consumer-group read on literal
'*', spec-topic read and describe, and a status-topic write rule whose topic
name substitutes the tenant id for the marker and whose pattern type is
literal. -/
theorem c2_acl_derivation (cfg : TransportConfig) (clusterName : String)
    (hwild : containsWildcard cfg.rawStatusTopic = true) :
    ensureUserACLs cfg clusterName
        = [ConsumeGroupReadACL,
           ReadTopicACL cfg.specTopic false,
           WriteTopicACL (substWildcard cfg.rawStatusTopic clusterName)]
      ∧ (WriteTopicACL (substWildcard cfg.rawStatusTopic clusterName)).patternType
          = PatternType.literalPattern
      ∧ (ensureUserACLs cfg clusterName).length = 3 := by
  refine ⟨?_, rfl, rfl⟩
  simp [ensureUserACLs, getClusterTopic, GetSpecTopic, GetStatusTopic, hwild]

theorem c2_acl_derivation_witness :
    containsWildcard c2Config.rawStatusTopic = true
      ∧ substWildcard c2Config.rawStatusTopic "cluster-a" = "status.cluster-a"
      ∧ ensureUserACLs c2Config "cluster-a"
          = [ConsumeGroupReadACL,
             ReadTopicACL "spec" false,
             WriteTopicACL (substWildcard c2Config.rawStatusTopic "cluster-a")] :=
  ⟨by decide, by decide, (c2_acl_derivation c2Config "cluster-a" (by decide)).1⟩

/-- Outcome of a Go computation: a value, a returned error, or a runtime
panic (nil-pointer dereference or out-of-range index). -/
inductive GoResult (α : Type) where
  | ok (val : α)
  | goError (msg : String)
  | panicked
deriving DecidableEq, Repr

/-- Whether the outcome is a returned error (not a success, not a panic). -/
def GoResult.isError {α : Type} : GoResult α → Bool
  | .goError _ => true
  | _ => false

/-- One status condition of the Kafka cluster object; both fields are
pointers in the strimzi client types, hence optional. -/
structure KafkaCondition where
  condType : Option String
  condStatus : Option String
deriving DecidableEq, Repr

/-- One listener entry of the Kafka cluster status. -/
structure KafkaListener where
  bootstrapServers : Option String
  certificates : List String
deriving DecidableEq, Repr

/-- The status of the Kafka cluster object. -/
structure KafkaClusterStatus where
  conditions : Option (List KafkaCondition)
  listeners : List KafkaListener
  clusterId : Option String
deriving DecidableEq, Repr

/-- The Kafka cluster object as read from the store (nspace stands for the
metadata namespace, a reserved word in Lean). -/
structure KafkaCluster where
  name : String
  nspace : String
  uid : String
  status : Option KafkaClusterStatus
deriving DecidableEq, Repr

/-- The connection credential assembled from a ready cluster. -/
structure KafkaConnCredential where
  ClusterID : String
  BootstrapServer : String
  CACert : String
deriving DecidableEq, Repr

/-- Base64 standard encoding, abstracted as the identity injection: no claim
inspects the encoded bytes. -/
def base64Std (s : String) : String := s

/-- The loop of getConnCredentailByCluster over status conditions: the Go
code dereferences condition.Type (a panic when nil), short-circuits when the
type is not Ready, dereferences condition.Status of a Ready condition, and on
Ready/True builds the credential from the second listener's bootstrap address
and first certificate, panicking when any of those is missing. -/
def condScanCredential (kc : KafkaCluster) (st : KafkaClusterStatus) :
    List KafkaCondition → GoResult KafkaConnCredential
  | [] => .goError (s!"kafka cluster {kc.nspace}/{kc.name} is not ready")
  | cond :: rest =>
    match cond.condType with
    | none => .panicked
    | some t =>
      if t = "Ready" then
        match cond.condStatus with
        | none => .panicked
        | some s =>
          if s = "True" then
            let clusterIdentity := match st.clusterId with
              | some cid => cid
              | none => kc.uid
            match st.listeners.get? 1 with
            | none => .panicked
            | some listener =>
              match listener.bootstrapServers with
              | none => .panicked
              | some bs =>
                match listener.certificates.get? 0 with
                | none => .panicked
                | some cert =>
                  .ok { ClusterID := clusterIdentity, BootstrapServer := bs,
                        CACert := base64Std cert }
          else condScanCredential kc st rest
      else condScanCredential kc st rest

/-- getConnCredentailByCluster (source spelling): fail when the status or its
conditions are absent, otherwise scan the conditions for Ready/True. -/
def getConnCredentailByCluster (kc : KafkaCluster) : GoResult KafkaConnCredential :=
  match kc.status with
  | none => .goError (s!"kafka cluster {kc.name} has no status conditions")
  | some st =>
    match st.conditions with
    | none => .goError (s!"kafka cluster {kc.name} has no status conditions")
    | some conds => condScanCredential kc st conds

/-- Every condition has a populated type, and Ready-typed conditions also a
populated status: what the Go dereferences touch before deciding. -/
def conditionsPopulated : List KafkaCondition → Bool
  | [] => true
  | c :: rest =>
    (match c.condType with
     | none => false
     | some t => if t = "Ready" then c.condStatus.isSome else true)
    && conditionsPopulated rest

/-- No condition is Ready with status True. -/
def noReadyTrue : List KafkaCondition → Bool
  | [] => true
  | c :: rest =>
    !(c.condType == some "Ready" && c.condStatus == some "True") && noReadyTrue rest

/-- The cluster is not ready: status absent, conditions absent, or all
conditions populated and none of them Ready/True. -/
def notReadyCluster (kc : KafkaCluster) : Bool :=
  match kc.status with
  | none => true
  | some st =>
    match st.conditions with
    | none => true
    | some conds => conditionsPopulated conds && noReadyTrue conds

/-- Replace the listener data of the cluster status, leaving the rest. -/
def setListeners (kc : KafkaCluster) (ls : List KafkaListener) : KafkaCluster :=
  { kc with status := kc.status.map (fun st => { st with listeners := ls }) }

theorem condScanCredential_notReady (kc : KafkaCluster) (st : KafkaClusterStatus) :
    ∀ (conds : List KafkaCondition), conditionsPopulated conds = true →
      noReadyTrue conds = true →
      condScanCredential kc st conds
        = .goError (s!"kafka cluster {kc.nspace}/{kc.name} is not ready")
  | [], _, _ => rfl
  | ⟨ct, cs⟩ :: rest, hp, hn => by
    simp only [conditionsPopulated, Bool.and_eq_true] at hp
    simp only [noReadyTrue, Bool.and_eq_true] at hn
    obtain ⟨hp1, hp2⟩ := hp
    obtain ⟨hn1, hn2⟩ := hn
    cases ct with
    | none => simp at hp1
    | some t =>
      by_cases ht : t = "Ready"
      · subst ht
        cases cs with
        | none => simp at hp1
        | some s =>
          have hs : ¬(s = "True") := by simpa using hn1
          simp only [condScanCredential]
          simp [hs]
          exact condScanCredential_notReady kc st rest hp2 hn2
      · simp only [condScanCredential]
        simp [ht]
        exact condScanCredential_notReady kc st rest hp2 hn2

/-- C4 (amended): on a cluster whose status is absent, whose conditions are
absent, or whose conditions are populated with none Ready/True, the resolver
returns the not-ready error and its outcome is independent of the listener
data (no listener field is read). -/
theorem c4_readiness_gating (kc : KafkaCluster) (h : notReadyCluster kc = true) :
    (getConnCredentailByCluster kc).isError = true
      ∧ ∀ ls, getConnCredentailByCluster (setListeners kc ls)
          = getConnCredentailByCluster kc := by
  obtain ⟨nm, ns, uid, ostatus⟩ := kc
  cases ostatus with
  | none => exact ⟨rfl, fun ls => rfl⟩
  | some st =>
    obtain ⟨oconds, listeners, cid⟩ := st
    cases oconds with
    | none => exact ⟨rfl, fun ls => rfl⟩
    | some conds =>
      have h' : conditionsPopulated conds = true ∧ noReadyTrue conds = true := by
        simpa [notReadyCluster, Bool.and_eq_true] using h
      constructor
      · rw [show getConnCredentailByCluster ⟨nm, ns, uid, some ⟨some conds, listeners, cid⟩⟩
            = condScanCredential ⟨nm, ns, uid, some ⟨some conds, listeners, cid⟩⟩
                ⟨some conds, listeners, cid⟩ conds from rfl]
        rw [condScanCredential_notReady _ _ conds h'.1 h'.2]
        rfl
      · intro ls
        rw [show getConnCredentailByCluster
              (setListeners ⟨nm, ns, uid, some ⟨some conds, listeners, cid⟩⟩ ls)
            = condScanCredential ⟨nm, ns, uid, some ⟨some conds, ls, cid⟩⟩
                ⟨some conds, ls, cid⟩ conds from rfl]
        rw [show getConnCredentailByCluster ⟨nm, ns, uid, some ⟨some conds, listeners, cid⟩⟩
            = condScanCredential ⟨nm, ns, uid, some ⟨some conds, listeners, cid⟩⟩
                ⟨some conds, listeners, cid⟩ conds from rfl]
        rw [condScanCredential_notReady _ _ conds h'.1 h'.2,
          condScanCredential_notReady _ _ conds h'.1 h'.2]

/-- A cluster whose only condition has a nil type pointer: it has no Ready
condition, yet the scan dereferences the nil type and panics. -/
def c4PanicCluster : KafkaCluster :=
  { name := "kafka", nspace := "multicluster-global-hub", uid := "uid-1",
    status := some { conditions := some [{ condType := none, condStatus := none }],
                     listeners := [], clusterId := none } }

/-- C4 fails as stated: a cluster with no Ready/True condition on which the
resolver does not return an error (it panics dereferencing the nil type). -/
theorem c4_counterexample :
    noReadyTrue [{ condType := none, condStatus := none }] = true
      ∧ (getConnCredentailByCluster c4PanicCluster).isError = false
      ∧ getConnCredentailByCluster c4PanicCluster = .panicked :=
  ⟨rfl, rfl, rfl⟩

/-- A cluster that is not ready: one Ready/False condition and one untyped-
status Warning condition, with no listener data. -/
def c4NotReadyCluster : KafkaCluster :=
  { name := "kafka", nspace := "multicluster-global-hub", uid := "uid-1",
    status := some
      { conditions := some [{ condType := some "Ready", condStatus := some "False" },
                            { condType := some "Warning", condStatus := none }],
        listeners := [], clusterId := none } }

theorem c4_readiness_gating_witness :
    notReadyCluster c4NotReadyCluster = true
      ∧ (getConnCredentailByCluster c4NotReadyCluster).isError = true :=
  ⟨rfl, (c4_readiness_gating c4NotReadyCluster rfl).1⟩

/-- A cluster carrying a Ready/True condition but no listener data. -/
def c5ReadyNoListeners : KafkaCluster :=
  { name := "kafka", nspace := "multicluster-global-hub", uid := "uid-1",
    status := some
      { conditions := some [{ condType := some "Ready", condStatus := some "True" }],
        listeners := [], clusterId := none } }

/-- C5: on a Ready cluster without listener data the resolver panics (the
unguarded accesses Status.Listeners[1].BootstrapServers and Certificates[0])
instead of returning the not-found error the specification requires. -/
theorem c5_listener_access_panics :
    getConnCredentailByCluster c5ReadyNoListeners = .panicked
      ∧ (getConnCredentailByCluster c5ReadyNoListeners).isError = false :=
  ⟨rfl, rfl⟩

/-- The owning deployment object (MulticlusterGlobalHub) as re-read before
each readiness poll. -/
structure MghState where
  mghNamespace : String
  deletionTimestamp : Option String
deriving DecidableEq, Repr

/-- What one readiness poll observes: the result of re-reading the owning
deployment (an error aborts the wait), and the Kafka cluster object when its
read succeeds (a failed read keeps polling). -/
structure ReadyPollEnv where
  mghGet : Except String MghState
  kafkaGet : Option KafkaCluster
deriving Repr

/-- Outcome of one poll-condition evaluation. -/
inductive CheckResult where
  | ready
  | notYet
  | fatal (msg : String)
  | panicked
deriving DecidableEq, Repr

/-- The fatal message produced when the owning deployment is being deleted. -/
def deletingMghMsg (ns : String) : String :=
  s!"deleting the mgh: {ns}, no need waiting the kafka ready"

/-- The scan of status conditions inside the readiness poll, with the same
dereference behaviour as the credential scan. -/
def condScanReady : List KafkaCondition → CheckResult
  | [] => .notYet
  | cond :: rest =>
    match cond.condType with
    | none => .panicked
    | some t =>
      if t = "Ready" then
        match cond.condStatus with
        | none => .panicked
        | some s => if s = "True" then .ready else condScanReady rest
      else condScanReady rest

/-- One iteration of the kafkaClusterReady poll closure: re-read the owning
deployment (a read error is returned and aborts the wait), abort fatally if
its deletion timestamp is set, then read the Kafka cluster and its status,
reporting not-yet on any absence, else scan the conditions.  The closure also
caches whether TLS is enabled on the spec listeners; that side effect does
not influence the poll outcome and is not modelled. -/
def kafkaReadyCheck (env : ReadyPollEnv) : CheckResult :=
  match env.mghGet with
  | .error e => .fatal e
  | .ok mgh =>
    if mgh.deletionTimestamp.isSome then .fatal (deletingMghMsg mgh.mghNamespace)
    else
      match env.kafkaGet with
      | none => .notYet
      | some kc =>
        match kc.status with
        | none => .notYet
        | some st =>
          match st.conditions with
          | none => .notYet
          | some conds => condScanReady conds

/-- Outcome of the bounded wait.PollUntilContextTimeout. -/
inductive PollOutcome where
  | ready
  | fatal (msg : String)
  | panicked
  | timeout
deriving DecidableEq, Repr

/-- kafkaClusterReady over a finite trace of observations, one per poll tick:
the first evaluation that is not not-yet decides the outcome; an exhausted
trace is the outer timeout. -/
def runKafkaReadyPoll : List ReadyPollEnv → PollOutcome
  | [] => .timeout
  | env :: rest =>
    match kafkaReadyCheck env with
    | .ready => .ready
    | .fatal msg => .fatal msg
    | .panicked => .panicked
    | .notYet => runKafkaReadyPoll rest

/-- C7: Abort on owner deletion during the readiness wait: as soon as a poll
tick re-reads the owning deployment and finds its deletion timestamp set, the
wait ends with the fatal deleting-mgh error at that very tick — regardless of
how many ticks remain before the outer timeout — and the error is surfaced. -/
theorem c7_abort_on_deletion (pre : List ReadyPollEnv) (env : ReadyPollEnv)
    (rest : List ReadyPollEnv) (mgh : MghState) (ts : String)
    (hpre : ∀ e ∈ pre, kafkaReadyCheck e = .notYet)
    (hmgh : env.mghGet = .ok mgh)
    (hdel : mgh.deletionTimestamp = some ts) :
    runKafkaReadyPoll (pre ++ env :: rest) = .fatal (deletingMghMsg mgh.mghNamespace) := by
  induction pre with
  | nil =>
    have hc : kafkaReadyCheck env = .fatal (deletingMghMsg mgh.mghNamespace) := by
      simp [kafkaReadyCheck, hmgh, hdel]
    simp only [List.nil_append, runKafkaReadyPoll, hc]
  | cons e pre' ih =>
    have he : kafkaReadyCheck e = .notYet := hpre e (by simp)
    simp only [List.cons_append, runKafkaReadyPoll, he]
    exact ih (fun x hx => hpre x (by simp [hx]))

/-- A tick in which nothing has converged yet (the cluster read fails). -/
def c7NotYetEnv : ReadyPollEnv :=
  { mghGet := .ok { mghNamespace := "multicluster-global-hub", deletionTimestamp := none },
    kafkaGet := none }

/-- The owning deployment observed with its deletion timestamp set. -/
def c7DeletingMgh : MghState :=
  { mghNamespace := "multicluster-global-hub",
    deletionTimestamp := some "2026-10-11T08:00:00Z" }

/-- A tick that observes the deletion-marked owning deployment. -/
def c7DeletingEnv : ReadyPollEnv := { mghGet := .ok c7DeletingMgh, kafkaGet := none }

theorem c7_abort_on_deletion_witness :
    kafkaReadyCheck c7NotYetEnv = .notYet
      ∧ c7DeletingEnv.mghGet = .ok c7DeletingMgh
      ∧ c7DeletingMgh.deletionTimestamp = some "2026-10-11T08:00:00Z"
      ∧ runKafkaReadyPoll ([c7NotYetEnv] ++ c7DeletingEnv :: [c7NotYetEnv])
          = .fatal (deletingMghMsg c7DeletingMgh.mghNamespace) :=
  ⟨rfl, rfl, rfl,
    c7_abort_on_deletion [c7NotYetEnv] c7DeletingEnv [c7NotYetEnv] c7DeletingMgh
      "2026-10-11T08:00:00Z"
      (fun e he => by rw [List.mem_singleton] at he; rw [he]; rfl) rfl rfl⟩

/-- The subscription spec fields set by newSubscription; config stands in for
the node-selector and tolerations configuration block. -/
structure SubscriptionSpec where
  channel : String
  installPlanApproval : String
  package : String
  catalogSource : String
  catalogSourceNamespace : String
  startingCSV : String
  config : String
deriving DecidableEq, Repr

/-- A write issued against the subscription object. -/
inductive SubAction where
  | create (spec : SubscriptionSpec)
  | update (spec : SubscriptionSpec)
deriving DecidableEq, Repr

/-- Whether the issued write is an Update. -/
def SubAction.isUpdate : SubAction → Bool
  | .update _ => true
  | _ => false

/-- ensureSubscription: create the expected subscription when absent; when
present, compute the starting CSV (cleared when the channel changes), copy
the expected spec over the existing one when the two are not DeepEqual, set
the starting CSV, and issue an Update unconditionally. -/
def ensureSubscription (existing : Option SubscriptionSpec)
    (expected : SubscriptionSpec) : SubAction :=
  match existing with
  | none => .create expected
  | some existingSpec =>
    let startingCSV :=
      if existingSpec.channel ≠ expected.channel then "" else expected.startingCSV
    let newSpec := if existingSpec ≠ expected then expected else existingSpec
    .update { newSpec with startingCSV := startingCSV }

/-- A subscription spec equal to what newSubscription would build. -/
def c6Spec : SubscriptionSpec :=
  { channel := "amq-streams-2.7.x", installPlanApproval := "Automatic",
    package := "amq-streams", catalogSource := "redhat-operators",
    catalogSourceNamespace := "openshift-marketplace", startingCSV := "",
    config := "default" }

/-- C6 fails as stated: with an existing subscription whose spec already
equals the desired spec, ensureSubscription still issues an Update write
(the Update call sits outside the DeepEqual guard). -/
theorem c6_counterexample :
    (ensureSubscription (some c6Spec) c6Spec).isUpdate = true := by decide

/-- C6 (amended): on an undrifted subscription the stage still issues an
Update, but the spec it writes equals the existing one, so the write changes
no stored content (the DeepEqual guard only skips the spec copy, not the
Update call). -/
theorem c6_subscription_update_content (s : SubscriptionSpec) :
    ensureSubscription (some s) s = .update s := by
  simp [ensureSubscription]

/-- Modelled from the spec: config.GetKafkaUserName is not among the sampled
sources; the tenant's access-credential object name is derived
deterministically from the tenant identifier. -/
def GetKafkaUserName (clusterName : String) : String := clusterName ++ "-kafka-user"

/-- The store state Prune acts on: the names of the existing KafkaUser and
KafkaTopic objects in the cluster namespace.  Get reports found or not-found
and Delete succeeds, matching the claim's store behaviour. -/
structure KafkaStore where
  users : List String
  topics : List String
deriving DecidableEq, Repr

/-- Prune: delete the tenant's KafkaUser when present (absence falls through
without error); the topic-deletion block is commented out in the source, so
topic objects are never touched.  Returns the store after the call and the
error, which is always absent. -/
def Prune (st : KafkaStore) (clusterName : String) : KafkaStore × Option String :=
  let userName := GetKafkaUserName clusterName
  if userName ∈ st.users then
    ({ st with users := st.users.filter (fun u => u ≠ userName) }, none)
  else (st, none)

/-- C9: Prune reports success whether or not the tenant's KafkaUser exists,
removes exactly that user when present, and leaves every topic object
untouched. -/
theorem c9_prune_semantics (st : KafkaStore) (clusterName : String) :
    (Prune st clusterName).2 = none
      ∧ (Prune st clusterName).1.topics = st.topics
      ∧ (Prune st clusterName).1.users
          = st.users.filter (fun u => u ≠ GetKafkaUserName clusterName) := by
  unfold Prune
  by_cases h : GetKafkaUserName clusterName ∈ st.users
  · rw [if_pos h]
    exact ⟨rfl, rfl, rfl⟩
  · rw [if_neg h]
    refine ⟨rfl, rfl, ?_⟩
    symm
    rw [List.filter_eq_self]
    intro a ha
    simp only [ne_eq, decide_not, Bool.not_eq_true', decide_eq_false_iff_not]
    exact fun he => h (he ▸ ha)

/-- Availability configuration of the global hub CR. -/
inductive AvailabilityConfig where
  | haHigh
  | haBasic
deriving DecidableEq, Repr

/-- Default partition count for topics. -/
def DefaultPartition : Int := 1

/-- Default replica count for topic partitions. -/
def DefaultPartitionReplicas : Int := 3

/-- The transporter configuration assembled by NewStrimziTransporter. -/
structure StrimziTransporterCfg where
  kafkaClusterName : String
  kafkaClusterNamespace : String
  subName : String
  subCommunity : Bool
  subChannel : String
  subCatalogSourceName : String
  subPackageName : String
  waitReady : Bool
  enableTLS : Bool
  sharedTopics : Bool
  topicPartitionReplicas : Int
deriving DecidableEq, Repr

/-- Subscription name default. -/
def DefaultKafkaSubName : String := "strimzi-kafka-operator"

/-- Production channel default. -/
def DefaultAMQChannel : String := "amq-streams-2.7.x"

/-- Production package default. -/
def DefaultAMQPackageName : String := "amq-streams"

/-- Production catalog source default. -/
def DefaultCatalogSourceName : String := "redhat-operators"

/-- Community channel. -/
def CommunityChannel : String := "strimzi-0.40.x"

/-- Community package. -/
def CommunityPackageName : String := "strimzi-kafka-operator"

/-- Community catalog source. -/
def CommunityCatalogSourceName : String := "community-operators"

/-- Kafka cluster object name. -/
def KafkaClusterName : String := "kafka"

/-- The defaults NewStrimziTransporter starts from. -/
def defaultTransporterCfg (mghNamespace : String) : StrimziTransporterCfg :=
  { kafkaClusterName := KafkaClusterName, kafkaClusterNamespace := mghNamespace,
    subName := DefaultKafkaSubName, subCommunity := false,
    subChannel := DefaultAMQChannel, subCatalogSourceName := DefaultCatalogSourceName,
    subPackageName := DefaultAMQPackageName, waitReady := true, enableTLS := true,
    sharedTopics := false, topicPartitionReplicas := DefaultPartitionReplicas }

/-- The option functions defined in the source. -/
inductive KafkaOption where
  | withNamespacedName (name nspace : String)
  | withContext
  | withCommunity (val : Bool)
  | withSubName (name : String)
  | withWaitReady (w : Bool)
deriving DecidableEq, Repr

/-- Apply one option to the configuration (WithContext only swaps the Go
context and carries no configuration data). -/
def applyOption (k : StrimziTransporterCfg) : KafkaOption → StrimziTransporterCfg
  | .withNamespacedName n ns => { k with kafkaClusterName := n, kafkaClusterNamespace := ns }
  | .withContext => k
  | .withCommunity v => { k with subCommunity := v }
  | .withSubName n => { k with subName := n }
  | .withWaitReady w => { k with waitReady := w }

/-- NewStrimziTransporter's configuration assembly: defaults, then the
options, then the community channel override, then the HABasic
single-replica override. -/
def NewStrimziTransporterCfg (mghNamespace : String)
    (availabilityConfig : AvailabilityConfig) (opts : List KafkaOption) :
    StrimziTransporterCfg :=
  let k := opts.foldl applyOption (defaultTransporterCfg mghNamespace)
  let k := if k.subCommunity then
      { k with
        subChannel := CommunityChannel
        subPackageName := CommunityPackageName
        subCatalogSourceName := CommunityCatalogSourceName }
    else k
  if availabilityConfig = AvailabilityConfig.haBasic then
    { k with topicPartitionReplicas := 1 }
  else k

/-- renderKafkaResources passes TopicReplicas := DefaultPartitionReplicas to
the manifest template, regardless of the availability configuration. -/
def renderTopicReplicas (_availabilityConfig : AvailabilityConfig) : Int :=
  DefaultPartitionReplicas

/-- C10: under HABasic the transporter's per-tenant topic path uses replica
count 1 while the rendered shared-topic path always uses
DefaultPartitionReplicas = 3, so the two topic-creation paths diverge. -/
theorem c10_replica_divergence (mghNamespace : String) (opts : List KafkaOption)
    (topicName : String) :
    (NewStrimziTransporterCfg mghNamespace .haBasic opts).topicPartitionReplicas = 1
      ∧ renderTopicReplicas .haBasic = 3
      ∧ getSpecReplicas (newKafkaTopic topicName mghNamespace KafkaClusterName
            DefaultPartition
            (NewStrimziTransporterCfg mghNamespace .haBasic opts).topicPartitionReplicas)
          = some (.num 1)
      ∧ (NewStrimziTransporterCfg mghNamespace .haBasic opts).topicPartitionReplicas
          ≠ renderTopicReplicas .haBasic := by
  have h1 : (NewStrimziTransporterCfg mghNamespace .haBasic opts).topicPartitionReplicas
      = 1 := by
    simp [NewStrimziTransporterCfg]
  refine ⟨h1, rfl, ?_, ?_⟩
  · rw [h1]
    rfl
  · rw [h1]
    decide

end GlobalHub
